import Mathlib

/-!
Shallow embedding of `AutoCalendarV4.py` (course-schedule text → ICS generator).

The embedding mirrors the Python source function by function:
`parseCourses`, `parseDays`, `parseDateRange`, `parseTimeRange`,
`getFirstOccurrence`, `formatDateTime`, `generateVTimezone`, `generateICS`.

Modelling conventions:
* Python strings are Lean `String`s / `List Char`; only ASCII case mapping is
  needed by the inputs the program handles, so `Char.toUpper`/`Char.toLower`
  stand in for `str.upper`/`str.lower`.
* `datetime.date` is a year/month/day record over the proleptic Gregorian
  calendar, capped like CPython at year 9999: `Date.nextDay` models
  `date + timedelta(days=1)`, returning `none` for the `OverflowError` raised
  when stepping past `date.max` = 9999-12-31 (ordinal 3652059), and the
  constructor check in `mkValidDate` includes the `MINYEAR ≤ year ≤ MAXYEAR`
  bounds.  That error propagates, uncaught, from `getFirstOccurrence` through
  `generateICS`, which the `PyResult` values of those embeddings record.
* Functions that can raise an uncaught Python exception return a `PyResult`;
  exceptions that the source catches locally are modelled inside the
  corresponding definition.
* `strptime` for the three fixed format strings used by the source is embedded
  with the exact token semantics of CPython's `_strptime` regexes
  (`%m`/`%d`/`%I` = one/two digit fields with the documented ranges, `%M` =
  `[0-5]\d|\d`, `%Y` = exactly four digits, `%b` = case-insensitive
  three-letter month abbreviation, a whitespace in the format = one or more
  whitespace characters, and a full match of the input is required), followed
  by the constructor's calendar-validity check.
* `uuid.uuid4()` and `datetime.utcnow()` are nondeterministic inputs of
  `generateICS`; they are passed in as parameters (`uid`, `dtStamp`).
-/

/-- ASCII whitespace recognised by Python's `str.strip`/`\s` on this input. -/
def pyIsSpace (c : Char) : Bool :=
  c == ' ' || c == '\t' || c == '\n' || c == '\r' || c == Char.ofNat 11 || c == Char.ofNat 12

/-- Python `str.strip()` on the character list. -/
def pyStrip (cs : List Char) : List Char :=
  ((cs.dropWhile pyIsSpace).reverse.dropWhile pyIsSpace).reverse

/-- Python `str.strip()` on strings. -/
def pyStripStr (s : String) : String :=
  String.mk (pyStrip s.data)

/-- Python `str.lower()` (ASCII). -/
def pyLowerStr (s : String) : String :=
  String.mk (s.data.map Char.toLower)

/-- Python `str.capitalize()` (ASCII): first character upper-cased, the rest
lower-cased. -/
def pyCapitalize (s : String) : String :=
  match s.data with
  | [] => ""
  | c :: rest => String.mk (c.toUpper :: rest.map Char.toLower)

/-- Python `str.split(sep)` for a non-empty separator (worker, fuelled to keep
the recursion structural; the fuel is always sufficient since every step
consumes input): scan left to right, splitting at each non-overlapping
occurrence of the separator and keeping empty pieces. -/
def splitOnGo (sep : List Char) : Nat → List Char → List Char → List (List Char)
  | 0, rest, acc => [acc.reverse ++ rest]
  | _ + 1, [], acc => [acc.reverse]
  | fuel + 1, c :: rest, acc =>
    if sep.isPrefixOf (c :: rest) then
      acc.reverse :: splitOnGo sep fuel ((c :: rest).drop sep.length) []
    else
      splitOnGo sep fuel rest (c :: acc)

/-- Python `str.split(sep)` / Lean `String.splitOn` for a non-empty literal
separator. -/
def pySplitOn (s sep : String) : List String :=
  (splitOnGo sep.data (s.data.length + 1) s.data []).map String.mk

/-- Python `sub in s` substring containment. -/
def pyContains (s sub : String) : Bool :=
  1 < (pySplitOn s sub).length

/-- Python `str.splitlines()` (worker): splits on `\r\n`, `\r`, `\n`; no
trailing empty line is produced. -/
def pySplitlinesGo : Nat → List Char → List Char → List (List Char)
  | 0, rest, acc => [acc.reverse ++ rest]
  | _ + 1, [], acc => if acc.isEmpty then [] else [acc.reverse]
  | fuel + 1, c :: rest, acc =>
    if c = '\r' then
      match rest with
      | '\n' :: rest2 => acc.reverse :: pySplitlinesGo fuel rest2 []
      | _ => acc.reverse :: pySplitlinesGo fuel rest []
    else if c = '\n' then acc.reverse :: pySplitlinesGo fuel rest []
    else pySplitlinesGo fuel rest (c :: acc)

/-- Python `str.splitlines()` (fuelled like the other workers; every step
consumes input, so the fuel is always sufficient). -/
def pySplitlines (s : String) : List String :=
  (pySplitlinesGo (s.data.length + 1) s.data []).map String.mk

/-- `re.split(r'\s{2,}', line)` (worker, fuelled to keep the recursion
structural; the fuel is always sufficient since every step consumes input).
A whitespace character opens a separator exactly when the next character is
also whitespace; the separator then greedily eats the whole whitespace run. -/
def splitWs2Go : Nat → List Char → List Char → List (List Char)
  | 0, rest, acc => [acc.reverse ++ rest]
  | _ + 1, [], acc => [acc.reverse]
  | fuel + 1, c :: rest, acc =>
    if pyIsSpace c then
      match rest with
      | [] => [(c :: acc).reverse]
      | c2 :: _ =>
        if pyIsSpace c2 then
          acc.reverse :: splitWs2Go fuel (rest.dropWhile pyIsSpace) []
        else
          splitWs2Go fuel rest (c :: acc)
    else
      splitWs2Go fuel rest (c :: acc)

/-- `re.split(r'\s{2,}', s)`: split on runs of two or more whitespace
characters. -/
def reSplitWs2 (s : String) : List String :=
  (splitWs2Go s.data.length.succ s.data []).map String.mk

/-! ## Python exceptions -/

/-- The Python exceptions relevant to this program: the two raised inside
`parseCourses`' extraction block and the date-arithmetic overflow of the
generator's first-occurrence scan. -/
inductive PyErr where
  | valueError
  | indexError
  | overflowError
deriving DecidableEq

/-- Result of running a piece of Python code that may raise an uncaught
exception. -/
inductive PyResult (α : Type) where
  | ok (val : α)
  | exn (e : PyErr)
deriving DecidableEq

/-! ## Dates and times -/

/-- `datetime.date`: a proleptic-Gregorian calendar date. -/
structure Date where
  year : Nat
  month : Nat
  day : Nat
deriving DecidableEq

/-- Gregorian leap-year test. -/
def isLeap (y : Nat) : Bool :=
  (y % 4 == 0 && y % 100 != 0) || y % 400 == 0

/-- Length of month `m` of year `y` (months are 1-based). -/
def daysInMonth (y m : Nat) : Nat :=
  if m = 2 then (if isLeap y then 29 else 28)
  else if m = 4 ∨ m = 6 ∨ m = 9 ∨ m = 11 then 30
  else 31

/-- Days in year `y` strictly before month `m`. -/
def daysBeforeMonth (y : Nat) : Nat → Nat
  | 0 => 0
  | 1 => 0
  | m + 2 => daysBeforeMonth y (m + 1) + daysInMonth y (m + 1)

/-- Days strictly before year `y` (counting from year 1). -/
def daysBeforeYear (y : Nat) : Nat :=
  365 * (y - 1) + (y - 1) / 4 - (y - 1) / 100 + (y - 1) / 400

/-- `date.toordinal()`: 0001-01-01 is ordinal 1. -/
def Date.toOrdinal (d : Date) : Nat :=
  daysBeforeYear d.year + daysBeforeMonth d.year d.month + d.day

/-- `date.weekday()`: Monday = 0 … Sunday = 6. -/
def Date.weekday (d : Date) : Nat :=
  (d.toOrdinal + 6) % 7

/-- The date is an actual calendar date that `datetime.date` can represent
(CPython bounds the year by `MINYEAR = 1` and `MAXYEAR = 9999`). -/
def Date.Valid (d : Date) : Prop :=
  1 ≤ d.year ∧ d.year ≤ 9999 ∧ 1 ≤ d.month ∧ d.month ≤ 12 ∧
    1 ≤ d.day ∧ d.day ≤ daysInMonth d.year d.month

instance (d : Date) : Decidable d.Valid := by
  unfold Date.Valid; infer_instance

/-- `date.max.toordinal()`: the ordinal of 9999-12-31, CPython's
`_MAXORDINAL`. -/
def pyDateMaxOrdinal : Nat := 3652059

/-- The calendar roll to the following day (the date arithmetic underlying
`date + timedelta(days=1)`, before the representability check). -/
def Date.succDay (d : Date) : Date :=
  if d.day < daysInMonth d.year d.month then ⟨d.year, d.month, d.day + 1⟩
  else if d.month < 12 then ⟨d.year, d.month + 1, 1⟩
  else ⟨d.year + 1, 1, 1⟩

/-- `date + timedelta(days=1)`: `none` models the `OverflowError` that
CPython raises when the resulting ordinal exceeds `_MAXORDINAL`. -/
def Date.nextDay (d : Date) : Option Date :=
  if d.toOrdinal + 1 ≤ pyDateMaxOrdinal then some d.succDay else none

/-- A wall-clock time of day (the parsed times of this program always have
zero seconds). -/
structure Time where
  hour : Nat
  minute : Nat
deriving DecidableEq

/-- A timezone-naive `datetime` wall-clock instant; the program attaches the
single fixed zone `America/New_York` to every instant, so the zone carries no
information and is left implicit. -/
structure DateTime where
  date : Date
  time : Time
deriving DecidableEq

/-- Total minutes from the calendar epoch, for comparing instants in the one
fixed time zone. -/
def DateTime.absMinutes (dt : DateTime) : Nat :=
  dt.date.toOrdinal * 1440 + dt.time.hour * 60 + dt.time.minute

/-- Zero-padded decimal rendering used by `strftime`. -/
def padNum (w n : Nat) : String :=
  let s := toString n
  String.mk (List.replicate (w - s.length) '0') ++ s

/-- `formatDateTime(dt)`: `dt.strftime("%Y%m%dT%H%M%S")`; the instants this is
applied to always carry zero seconds. -/
def formatDateTime (dt : DateTime) : String :=
  padNum 4 dt.date.year ++ padNum 2 dt.date.month ++ padNum 2 dt.date.day ++ "T" ++
    padNum 2 dt.time.hour ++ padNum 2 dt.time.minute ++ "00"

/-! ## strptime for the three fixed formats -/

/-- Decimal value of a digit list. -/
def digitsVal (cs : List Char) : Nat :=
  cs.foldl (fun a c => 10 * a + (c.toNat - 48)) 0

/-- A one-or-two digit `strptime` field whose value must lie in `[lo, hi]`
(the exact language of the `%m`/`%d`/`%I`/`%M` regexes, which never match a
bare `"0"` when `lo = 1` and never match three digits). -/
def numField (lo hi : Nat) (cs : List Char) : Option Nat :=
  if (cs.length = 1 ∨ cs.length = 2) ∧ cs.all Char.isDigit = true ∧
      lo ≤ digitsVal cs ∧ digitsVal cs ≤ hi then
    some (digitsVal cs)
  else none

/-- The `%Y` field: exactly four digits. -/
def year4 (cs : List Char) : Option Nat :=
  if cs.length = 4 ∧ cs.all Char.isDigit = true then some (digitsVal cs) else none

/-- The `datetime` constructor's validity check, including the
`MINYEAR ≤ year ≤ MAXYEAR` bounds (month range is already guaranteed by the
`%m`/`%b` fields, day lower bound by `%d`, and the four-digit `%Y` keeps the
year at most 9999 anyway). -/
def mkValidDate (y m d : Nat) : Option Date :=
  if 1 ≤ y ∧ y ≤ 9999 ∧ 1 ≤ d ∧ d ≤ daysInMonth y m then some ⟨y, m, d⟩ else none

/-- Lower-case three-letter month abbreviations accepted by `%b`. -/
def monthAbbrevNum (s : String) : Option Nat :=
  if s = "jan" then some 1 else if s = "feb" then some 2 else if s = "mar" then some 3
  else if s = "apr" then some 4 else if s = "may" then some 5 else if s = "jun" then some 6
  else if s = "jul" then some 7 else if s = "aug" then some 8 else if s = "sep" then some 9
  else if s = "oct" then some 10 else if s = "nov" then some 11 else if s = "dec" then some 12
  else none

/-- `datetime.strptime(s, "%m/%d/%Y").date()` as an `Option`.  The format's
literal slashes cannot occur inside the digit fields, so the regex match
decomposes into a three-way split on `/` with full field matches. -/
def strptimeMDY (s : String) : Option Date :=
  match (pySplitOn s "/").map String.data with
  | [ms, ds, ys] => do
    let m ← numField 1 12 ms
    let d ← numField 1 31 ds
    let y ← year4 ys
    mkValidDate y m d
  | _ => none

/-- `datetime.strptime(s, "%b %d, %Y").date()` as an `Option`: three-letter
month (case-insensitive), one-or-more whitespace, day field, literal comma,
one-or-more whitespace, four-digit year, end of input. -/
def strptimeBdY (s : String) : Option Date :=
  match s.data with
  | c1 :: c2 :: c3 :: rest =>
    match monthAbbrevNum (String.mk [c1.toLower, c2.toLower, c3.toLower]) with
    | none => none
    | some m =>
      if (rest.takeWhile pyIsSpace).length = 0 then none
      else
        let r1 := rest.dropWhile pyIsSpace
        let dayCs := r1.takeWhile Char.isDigit
        match numField 1 31 dayCs with
        | none => none
        | some d =>
          match r1.drop dayCs.length with
          | ',' :: r2 =>
            if (r2.takeWhile pyIsSpace).length = 0 then none
            else
              match year4 (r2.dropWhile pyIsSpace) with
              | none => none
              | some y => mkValidDate y m d
          | _ => none
  | _ => none

/-- `parseDateRange(dateRangeStr)`: split on `-` into exactly two stripped
parts, then try `%m/%d/%Y` on both parts and, failing that, `%b %d, %Y` on
both parts; `none` models the `(None, None)` failure signal. -/
def parseDateRange (dateRangeStr : String) : Option (Date × Date) :=
  match (pySplitOn dateRangeStr "-").map pyStripStr with
  | [startStr, endStr] =>
    match strptimeMDY startStr, strptimeMDY endStr with
    | some startDate, some endDate => some (startDate, endDate)
    | _, _ =>
      match strptimeBdY startStr, strptimeBdY endStr with
      | some startDate, some endDate => some (startDate, endDate)
      | _, _ => none
  | _ => none

/-- The clock part of `strptime(..., "%m/%d/%Y %I:%M %p")` applied to an
already stripped and upper-cased time string: hour field (1–12), literal
colon, minute field (0–59), one-or-more whitespace, `AM`/`PM`, end of input;
then the 12-hour → 24-hour conversion. -/
def parseClockUpper (cs : List Char) : Option Time :=
  let hCs := cs.takeWhile Char.isDigit
  match numField 1 12 hCs with
  | none => none
  | some h12 =>
    match cs.drop hCs.length with
    | ':' :: r1 =>
      let mCs := r1.takeWhile Char.isDigit
      match numField 0 59 mCs with
      | none => none
      | some mi =>
        let r2 := r1.drop mCs.length
        if (r2.takeWhile pyIsSpace).length = 0 then none
        else
          match r2.dropWhile pyIsSpace with
          | ['A', 'M'] => some ⟨if h12 = 12 then 0 else h12, mi⟩
          | ['P', 'M'] => some ⟨if h12 = 12 then 12 else h12 + 12, mi⟩
          | _ => none
    | _ => none

/-- `parseTimeRange(timeStr, eventDate, tz)`: split on `-` into exactly two
parts, strip and upper-case each, parse each as a 12-hour clock time anchored
to `eventDate`.  The date component of the combined string is
`eventDate.strftime('%m/%d/%Y')`, which always re-parses to `eventDate`, so
only the clock part decides success.  `none` models `(None, None)`. -/
def parseTimeRange (timeStr : String) (eventDate : Date) : Option (DateTime × DateTime) :=
  match (pySplitOn timeStr "-").map (fun s => (pyStrip s.data).map Char.toUpper) with
  | [a, b] =>
    match parseClockUpper a, parseClockUpper b with
    | some t1, some t2 => some (⟨eventDate, t1⟩, ⟨eventDate, t2⟩)
    | _, _ => none
  | _ => none

/-! ## Day letters and first occurrence -/

/-- The single-letter day table of `parseDays`. -/
def dayLetter (c : Char) : Option String :=
  match c with
  | 'M' => some "MO"
  | 'T' => some "TU"
  | 'W' => some "WE"
  | 'R' => some "TH"
  | 'F' => some "FR"
  | 'S' => some "SA"
  | 'U' => some "SU"
  | _ => none

/-- `parseDays(daysStr)`: strip, upper-case, map each recognised letter to its
ICS BYDAY token, silently dropping everything else. -/
def parseDays (daysStr : String) : List String :=
  ((pyStrip daysStr.data).map Char.toUpper).filterMap dayLetter

/-- The BYDAY → weekday-number table of `getFirstOccurrence`. -/
def weekdayMapping (s : String) : Option Nat :=
  if s = "MO" then some 0 else if s = "TU" then some 1 else if s = "WE" then some 2
  else if s = "TH" then some 3 else if s = "FR" then some 4 else if s = "SA" then some 5
  else if s = "SU" then some 6 else none

/-- The 7-iteration scan of `getFirstOccurrence`: `ok (some _)` is the
`return` inside the loop, `ok none` means the loop ran out, and `exn` is the
`OverflowError` escaping from `current += timedelta(days=1)` when the scan
steps past `date.max`. -/
def firstOccAux (targets : List Nat) : Nat → Date → PyResult (Option Date)
  | 0, _ => .ok none
  | n + 1, cur =>
    if cur.weekday ∈ targets then .ok (some cur)
    else
      match cur.nextDay with
      | none => .exn .overflowError
      | some nxt => firstOccAux targets n nxt

/-- `getFirstOccurrence(startDate, bydayList)`: first date on or after
`startDate` (scanning 7 consecutive days) whose weekday is listed; falls back
to `startDate` when the loop finds nothing, and raises `OverflowError` when
the loop increments past the last representable date. -/
def getFirstOccurrence (startDate : Date) (bydayList : List String) : PyResult Date :=
  match firstOccAux (bydayList.filterMap weekdayMapping) 7 startDate with
  | .ok (some d) => .ok d
  | .ok none => .ok startDate
  | .exn e => .exn e

/-! ## The course parser -/

/-- A parsed course record (`class Course`): the constructor replaces a
missing/empty instructor or location by the `"TBA"` sentinel and lower-cases
the meeting type. -/
structure Course where
  className : String
  instructor : String
  meetingType : String
  time : String
  days : String
  location : String
  dateRange : String
deriving DecidableEq

/-- `Course.__init__`: `instructor` arrives as `None` or a string (falsy values
become `"TBA"`), `meetingType` is lower-cased, a falsy `location` becomes
`"TBA"`. -/
def mkCourse (className : String) (instructor : Option String) (meetingType time days location dateRange : String) : Course :=
  { className := className
    instructor := match instructor with
      | some s => if s = "" then "TBA" else s
      | none => "TBA"
    meetingType := pyLowerStr meetingType
    time := time
    days := days
    location := if location = "" then "TBA" else location
    dateRange := dateRange }

/-- The five schedule fields extracted from a data line, initialised to the
`"TBA"` sentinel. -/
structure Fields where
  timeVal : String
  days : String
  location : String
  dateRange : String
  meetingType : String
deriving DecidableEq

/-- All fields at the sentinel default (`timeVal = days = location = dateRange
= meetingType = "TBA"`). -/
def Fields.tba : Fields :=
  ⟨"TBA", "TBA", "TBA", "TBA", "TBA"⟩

/-- `data[headers.index(name)]`: `headers.index` raises `ValueError` when the
name is absent; the subscript raises `IndexError` when the found index is
beyond the data cells. -/
def cellAt (headers data : List String) (name : String) : PyResult String :=
  match headers.findIdx? (· = name) with
  | none => .exn .valueError
  | some i =>
    match data.get? i with
    | some v => .ok v
    | none => .exn .indexError

/-- The column-position fallback (`re.split(r'\s{2,}', meetingInfoLine)`
with positional fields): with at least 7 parts it assigns parts `[1]`–`[5]`,
otherwise it assigns nothing and the fields keep their current values. -/
def fallbackUpdate (meetingInfoLine : String) (f : Fields) : Fields :=
  let parts := reSplitWs2 meetingInfoLine
  if 7 ≤ parts.length then
    { timeVal := pyStripStr (parts.getD 1 "")
      days := pyStripStr (parts.getD 2 "")
      location := pyStripStr (parts.getD 3 "")
      dateRange := pyStripStr (parts.getD 4 "")
      meetingType := pyLowerStr (pyStripStr (parts.getD 5 "")) }
  else f

/-- The `try` block of tab-delimited extraction: sequential assignments from
header-named cells; a `ValueError` (header name not found) is caught and falls
back to `fallbackUpdate` with the fields assigned so far, while any other
exception — the `IndexError` of a data row shorter than the found column
index — escapes. -/
def tabAssign (headers data : List String) (meetingInfoLine : String) (f0 : Fields) : PyResult Fields :=
  match cellAt headers data "Time" with
  | .exn .valueError => .ok (fallbackUpdate meetingInfoLine f0)
  | .exn e => .exn e
  | .ok v1 =>
    let f1 := { f0 with timeVal := pyStripStr v1 }
    match cellAt headers data "Days" with
    | .exn .valueError => .ok (fallbackUpdate meetingInfoLine f1)
    | .exn e => .exn e
    | .ok v2 =>
      let f2 := { f1 with days := pyStripStr v2 }
      match cellAt headers data "Where" with
      | .exn .valueError => .ok (fallbackUpdate meetingInfoLine f2)
      | .exn e => .exn e
      | .ok v3 =>
        let f3 := { f2 with location := pyStripStr v3 }
        match cellAt headers data "Date Range" with
        | .exn .valueError => .ok (fallbackUpdate meetingInfoLine f3)
        | .exn e => .exn e
        | .ok v4 =>
          let f4 := { f3 with dateRange := pyStripStr v4 }
          match cellAt headers data "Schedule Type" with
          | .exn .valueError => .ok (fallbackUpdate meetingInfoLine f4)
          | .exn e => .exn e
          | .ok v5 => .ok { f4 with meetingType := pyLowerStr (pyStripStr v5) }

/-- The instructor scan of a block: every line containing the marker
overwrites the instructor with the trimmed text after the marker (so the last
matching line wins); `none` models the initial Python `None`. -/
def blockInstructor (lines : List String) : Option String :=
  lines.foldl
    (fun acc line =>
      let parts := pySplitOn line "Assigned Instructor:"
      if 1 < parts.length then some (pyStripStr (parts.getD 1 "")) else acc)
    none

/-- The schedule-field extraction of a block: locate the
"Scheduled Meeting Times" marker, take the next line as header and the one
after as data line (both stripped), then tab-delimited extraction with
positional fallback.  `headerLine` is only read when `meetingInfoLine` exists,
and `i + 2 < len(lines)` then guarantees `i + 1 < len(lines)`, so the
`getD ""` defaults are never taken. -/
def blockFields (lines : List String) : PyResult Fields :=
  let schedIdx := lines.findIdx? (fun line => pyContains line "Scheduled Meeting Times")
  let headerLine : Option String := schedIdx.bind
    (fun i => if i + 1 < lines.length then some (pyStripStr (lines.getD (i + 1) "")) else none)
  let meetingInfoLine : Option String := schedIdx.bind
    (fun i => if i + 2 < lines.length then some (pyStripStr (lines.getD (i + 2) "")) else none)
  match meetingInfoLine with
  | some mil =>
    if mil = "" then .ok Fields.tba
    else if mil.data.contains '\t' then
      tabAssign (pySplitOn (headerLine.getD "") "\t") (pySplitOn mil "\t") mil Fields.tba
    else .ok (fallbackUpdate mil Fields.tba)
  | none => .ok Fields.tba

/-- One iteration of the block loop of `parseCourses`: `ok none` models
`continue` on an empty block, `ok (some c)` an appended course, `exn` an
escaping exception. -/
def processBlock (block : String) : PyResult (Option Course) :=
  match pySplitlines (pyStripStr block) with
  | [] => .ok none
  | l0 :: rest =>
    match blockFields (l0 :: rest) with
    | .exn e => .exn e
    | .ok f =>
      .ok (some (mkCourse (pyStripStr l0) (blockInstructor (l0 :: rest))
        f.meetingType f.timeVal f.days f.location f.dateRange))

/-- The block loop of `parseCourses`, appending courses in input order and
propagating an escaping exception. -/
def parseBlocks : List String → List Course → PyResult (List Course)
  | [], acc => .ok acc
  | b :: bs, acc =>
    match processBlock b with
    | .exn e => .exn e
    | .ok none => parseBlocks bs acc
    | .ok (some c) => parseBlocks bs (acc ++ [c])

/-- `parseCourses(text)`: strip, split into blocks on blank lines (`"\n\n"`),
process each block in order. -/
def parseCourses (text : String) : PyResult (List Course) :=
  parseBlocks (pySplitOn (pyStripStr text) "\n\n") []

/-- The class name a block contributes: the trimmed first line of the trimmed
block (the value `parseCourses` assigns to `className`). -/
def blockClassName (b : String) : String :=
  pyStripStr ((pySplitlines (pyStripStr b)).headD "")

/-! ## The ICS generator -/

/-- `generateVTimezone("America/New_York")`: the fixed VTIMEZONE block. -/
def vtimezoneBlock : String :=
  String.intercalate "\n"
    ["BEGIN:VTIMEZONE", "TZID:America/New_York", "X-LIC-LOCATION:America/New_York",
     "BEGIN:DAYLIGHT", "TZOFFSETFROM:-0500", "TZOFFSETTO:-0400", "TZNAME:EDT",
     "DTSTART:19700308T020000", "RRULE:FREQ=YEARLY;BYMONTH=3;BYDAY=2SU", "END:DAYLIGHT",
     "BEGIN:STANDARD", "TZOFFSETFROM:-0400", "TZOFFSETTO:-0500", "TZNAME:EST",
     "DTSTART:19701101T020000", "RRULE:FREQ=YEARLY;BYMONTH=11;BYDAY=1SU", "END:STANDARD",
     "END:VTIMEZONE"]

/-- The document-level header lines appended before the event loop. -/
def headerLines (calendarName : String) : List String :=
  ["BEGIN:VCALENDAR", "VERSION:2.0", "PRODID:-//Course ICS Converter//EN",
   "X-WR-CALNAME:" ++ calendarName, vtimezoneBlock]

/-- The body of the per-course loop of `generateICS`: the lines this course
appends to the document.  `uid` is the `uuid4()` drawn for this course and
`dtStamp` the formatted generation timestamp computed before the loop.
`ok []` models `continue` (the record is skipped silently); `exn` models the
`OverflowError` escaping, uncaught, from `getFirstOccurrence`. -/
def courseEvent (dtStamp uid : String) (c : Course) : PyResult (List String) :=
  if c.dateRange = "TBA" ∨ c.time = "TBA" ∨ c.days = "TBA" then .ok []
  else
    match parseDateRange c.dateRange with
    | none => .ok []
    | some (startDate, endDate) =>
      let bydayList := parseDays c.days
      if bydayList = [] then .ok []
      else
        match getFirstOccurrence startDate bydayList with
        | .exn e => .exn e
        | .ok firstOccurrenceDate =>
          match parseTimeRange c.time firstOccurrenceDate with
          | none => .ok []
          | some (startDT, endDT) =>
            let untilDT : DateTime := ⟨endDate, startDT.time⟩
            let rrule := "FREQ=WEEKLY;UNTIL=" ++ formatDateTime untilDT ++ ";BYDAY=" ++
              String.intercalate "," bydayList
            .ok ["BEGIN:VEVENT",
                 "UID:" ++ uid ++ "@coursecalendar",
                 "DTSTAMP:" ++ dtStamp,
                 "DTSTART;TZID=America/New_York:" ++ formatDateTime startDT,
                 "DTEND;TZID=America/New_York:" ++ formatDateTime endDT,
                 "RRULE:" ++ rrule,
                 "SUMMARY:" ++ c.className,
                 "DESCRIPTION:" ++ "Type: " ++ pyCapitalize c.meetingType ++ "\\nInstructor: " ++ c.instructor,
                 "LOCATION:" ++ c.location,
                 "END:VEVENT"]

/-- The lines of a successful per-course contribution (empty on a skip); on
the exception path there are no contributed lines. -/
def okLines : PyResult (List String) → List String
  | .ok ls => ls
  | .exn _ => []

/-- The per-course loop of `generateICS`, appending each course's lines in
input order and propagating an escaping exception. -/
def eventLoop (dtStamp : String) (uid : Nat → String) : List (Nat × Course) → List String → PyResult (List String)
  | [], acc => .ok acc
  | p :: ps, acc =>
    match courseEvent dtStamp (uid p.1) p.2 with
    | .exn e => .exn e
    | .ok ls => eventLoop dtStamp uid ps (acc ++ ls)

/-- The line list built by `generateICS(courses, calendarName)`: header lines,
then the per-course loop in input order, then the closing footer.  `uid i` is
the `uuid4()` string drawn when the `i`-th input course reaches the UID line
(uuid draws are nondeterministic, so they are indexed by input position). -/
def generateICSLines (dtStamp : String) (uid : Nat → String) (calendarName : String) (courses : List Course) : PyResult (List String) :=
  match eventLoop dtStamp uid courses.enum (headerLines calendarName) with
  | .exn e => .exn e
  | .ok ls => .ok (ls ++ ["END:VCALENDAR"])

/-- `generateICS`: the final joined document text (or the escaping
exception). -/
def generateICS (dtStamp : String) (uid : Nat → String) (calendarName : String) (courses : List Course) : PyResult String :=
  match generateICSLines dtStamp uid calendarName courses with
  | .exn e => .exn e
  | .ok ls => .ok (String.intercalate "\n" ls)
/-! ## Calendar arithmetic lemmas -/

theorem isLeap_iff (y : Nat) :
    isLeap y = true ↔ ((y % 4 = 0 ∧ y % 100 ≠ 0) ∨ y % 400 = 0) := by
  simp [isLeap]

theorem daysInMonth_pos (y m : Nat) : 1 ≤ daysInMonth y m := by
  unfold daysInMonth
  split
  · split <;> omega
  · split <;> omega

theorem daysBeforeMonth_13 (y : Nat) :
    daysBeforeMonth y 13 = 365 + (if isLeap y then 1 else 0) := by
  show daysBeforeMonth y (11 + 2) = _
  norm_num [daysBeforeMonth, daysInMonth]
  cases h : isLeap y <;> simp [h]

theorem daysBeforeYear_succ {y : Nat} (hy : 1 ≤ y) :
    daysBeforeYear (y + 1) = daysBeforeYear y + 365 + (if isLeap y then 1 else 0) := by
  obtain ⟨k, rfl⟩ : ∃ k, y = k + 1 := ⟨y - 1, by omega⟩
  have h4 := Nat.succ_div k 4
  have h100 := Nat.succ_div k 100
  have h400 := Nat.succ_div k 400
  unfold daysBeforeYear
  simp only [Nat.add_sub_cancel, isLeap_iff]
  rw [h4, h100, h400]
  split_ifs <;> omega

theorem daysBeforeMonth_succ (y : Nat) {m : Nat} (hm : 1 ≤ m) :
    daysBeforeMonth y (m + 1) = daysBeforeMonth y m + daysInMonth y m := by
  obtain ⟨k, rfl⟩ : ∃ k, m = k + 1 := ⟨m - 1, by omega⟩
  rfl

theorem toOrdinal_succDay {d : Date} (h : d.Valid) : d.succDay.toOrdinal = d.toOrdinal + 1 := by
  obtain ⟨hy, hyc, hm1, hm12, hd1, hd2⟩ := h
  unfold Date.succDay
  by_cases hlt : d.day < daysInMonth d.year d.month
  · simp only [hlt, if_true, Date.toOrdinal]
    omega
  · by_cases hm : d.month < 12
    · simp only [hlt, if_false, hm, if_true, Date.toOrdinal]
      have hstep := daysBeforeMonth_succ d.year hm1
      omega
    · have hm2 : d.month = 12 := by omega
      simp only [hlt, if_false, hm, Date.toOrdinal]
      have h13 : daysBeforeMonth d.year 13 = 365 + (if isLeap d.year then 1 else 0) :=
        daysBeforeMonth_13 d.year
      have hstep : daysBeforeMonth d.year 13 = daysBeforeMonth d.year 12 + daysInMonth d.year 12 := rfl
      have hsy := daysBeforeYear_succ hy
      have hone : daysBeforeMonth (d.year + 1) 1 = 0 := rfl
      rw [hm2] at hlt hd2 ⊢
      split_ifs at hsy h13 <;> omega

theorem succDay_valid {d : Date} (h : d.Valid) (hcap : d.toOrdinal + 1 ≤ pyDateMaxOrdinal) :
    d.succDay.Valid := by
  obtain ⟨hy, hyc, hm1, hm12, hd1, hd2⟩ := h
  have h28 : ∀ y m, 1 ≤ daysInMonth y m := daysInMonth_pos
  unfold Date.succDay Date.Valid
  by_cases hlt : d.day < daysInMonth d.year d.month
  · simp only [hlt, if_true]
    exact ⟨hy, hyc, hm1, hm12, by omega, by omega⟩
  · by_cases hm : d.month < 12
    · simp only [hlt, if_false, hm, if_true]
      exact ⟨hy, hyc, by omega, by omega, le_refl 1, h28 _ _⟩
    · simp only [hlt, if_false, hm]
      refine ⟨by omega, ?_, by omega, by omega, le_refl 1, h28 _ _⟩
      -- rolling out of December of year 9999 would step past date.max,
      -- which the cap hypothesis rules out
      by_contra hnew
      have hy9 : d.year = 9999 := by omega
      have hm2 : d.month = 12 := by omega
      have h31 : daysInMonth d.year 12 = 31 := rfl
      have hday : d.day = 31 := by rw [hm2] at hlt hd2; omega
      have hord : d.toOrdinal = 3652059 := by
        show daysBeforeYear d.year + daysBeforeMonth d.year d.month + d.day = 3652059
        rw [hy9, hm2, hday]
        decide
      have hmax : pyDateMaxOrdinal = 3652059 := rfl
      omega

theorem weekday_succDay {d : Date} (h : d.Valid) : d.succDay.weekday = (d.weekday + 1) % 7 := by
  unfold Date.weekday
  rw [toOrdinal_succDay h]
  omega

theorem nextDay_eq_some {d : Date} (hcap : d.toOrdinal + 1 ≤ pyDateMaxOrdinal) :
    d.nextDay = some d.succDay := by
  unfold Date.nextDay
  rw [if_pos hcap]

theorem iterate_succDay_facts {d : Date} (h : d.Valid) :
    ∀ k : Nat, d.toOrdinal + k ≤ pyDateMaxOrdinal →
      (Date.succDay^[k] d).Valid ∧ (Date.succDay^[k] d).toOrdinal = d.toOrdinal + k := by
  intro k
  induction k with
  | zero => intro _; exact ⟨h, rfl⟩
  | succ n ih =>
    intro hcap
    obtain ⟨hv, ho⟩ := ih (by omega)
    rw [Function.iterate_succ_apply']
    have hcap2 : (Date.succDay^[n] d).toOrdinal + 1 ≤ pyDateMaxOrdinal := by omega
    refine ⟨succDay_valid hv hcap2, ?_⟩
    rw [toOrdinal_succDay hv]
    omega

theorem weekday_iterate_succDay {d : Date} (h : d.Valid) (k : Nat)
    (hcap : d.toOrdinal + k ≤ pyDateMaxOrdinal) :
    (Date.succDay^[k] d).weekday = (d.weekday + k) % 7 := by
  have hord := (iterate_succDay_facts h k hcap).2
  unfold Date.weekday
  rw [hord]
  omega

theorem weekday_lt_7 (d : Date) : d.weekday < 7 := by
  unfold Date.weekday; omega

theorem firstOccAux_empty :
    ∀ (n : Nat) (cur : Date), cur.Valid → cur.toOrdinal + n ≤ pyDateMaxOrdinal →
      firstOccAux [] n cur = .ok none := by
  intro n
  induction n with
  | zero => intro cur _ _; rfl
  | succ k ih =>
    intro cur hv hcap
    have hstep : cur.nextDay = some cur.succDay := nextDay_eq_some (by omega)
    unfold firstOccAux
    rw [if_neg (List.not_mem_nil cur.weekday), hstep]
    exact ih cur.succDay (succDay_valid hv (by omega)) (by rw [toOrdinal_succDay hv]; omega)

theorem firstOccAux_first_match (targets : List Nat) :
    ∀ (n : Nat) (cur : Date), cur.Valid → cur.toOrdinal + n ≤ pyDateMaxOrdinal + 1 →
      (∃ k, k < n ∧ (Date.succDay^[k] cur).weekday ∈ targets) →
      ∃ k, k < n ∧ firstOccAux targets n cur = .ok (some (Date.succDay^[k] cur)) ∧
        (Date.succDay^[k] cur).weekday ∈ targets ∧
        ∀ j < k, (Date.succDay^[j] cur).weekday ∉ targets := by
  intro n
  induction n with
  | zero => intro cur _ _ h; obtain ⟨k, hk, _⟩ := h; omega
  | succ n ih =>
    intro cur hv hcap h
    by_cases h0 : cur.weekday ∈ targets
    · refine ⟨0, by omega, ?_, by simpa using h0, by omega⟩
      simp [firstOccAux, h0]
    · obtain ⟨k, hk, hmem⟩ := h
      obtain ⟨k', rfl⟩ : ∃ k', k = k' + 1 := by
        rcases k with _ | k'
        · exact absurd (by simpa using hmem) h0
        · exact ⟨k', rfl⟩
      have hn1 : 1 ≤ n := by omega
      have hstep : cur.nextDay = some cur.succDay := nextDay_eq_some (by omega)
      rw [Function.iterate_succ_apply] at hmem
      have hv2 : cur.succDay.Valid := succDay_valid hv (by omega)
      have hcap2 : cur.succDay.toOrdinal + n ≤ pyDateMaxOrdinal + 1 := by
        rw [toOrdinal_succDay hv]; omega
      obtain ⟨k₀, hk₀, heq, hmem₀, hmin₀⟩ := ih cur.succDay hv2 hcap2 ⟨k', by omega, hmem⟩
      refine ⟨k₀ + 1, by omega, ?_, ?_, ?_⟩
      · simpa [firstOccAux, h0, hstep, Function.iterate_succ_apply] using heq
      · rw [Function.iterate_succ_apply]; exact hmem₀
      · intro j hj
        rcases j with _ | j'
        · simpa using h0
        · rw [Function.iterate_succ_apply]
          exact hmin₀ j' (by omega)

theorem firstOccAux_exn (targets : List Nat) :
    ∀ (n : Nat) (cur : Date) (e : PyErr),
      firstOccAux targets n cur = .exn e → e = .overflowError := by
  intro n
  induction n with
  | zero => intro cur e h; cases h
  | succ k ih =>
    intro cur e h
    unfold firstOccAux at h
    by_cases h0 : cur.weekday ∈ targets
    · rw [if_pos h0] at h
      cases h
    · rw [if_neg h0] at h
      rcases hnd : cur.nextDay with _ | nxt
      · rw [hnd] at h
        injection h with h1
        exact h1.symm
      · rw [hnd] at h
        exact ih nxt e h

theorem getFirstOccurrence_exn {sd : Date} {bl : List String} {e : PyErr}
    (h : getFirstOccurrence sd bl = .exn e) : e = .overflowError := by
  unfold getFirstOccurrence at h
  rcases haux : firstOccAux (bl.filterMap weekdayMapping) 7 sd with v | e2
  · rw [haux] at h
    rcases v with _ | d <;> cases h
  · rw [haux] at h
    injection h with h1
    rw [← h1]
    exact firstOccAux_exn (bl.filterMap weekdayMapping) 7 sd e2 haux

theorem weekdayMapping_lt_7 {s : String} {t : Nat} (h : weekdayMapping s = some t) : t < 7 := by
  unfold weekdayMapping at h
  split_ifs at h <;> simp_all <;> omega

theorem exists_match_within_7 {d : Date} (hval : d.Valid)
    (hcap : d.toOrdinal + 6 ≤ pyDateMaxOrdinal) {targets : List Nat}
    (hsub : ∀ t ∈ targets, t < 7) (hne : targets ≠ []) :
    ∃ k, k < 7 ∧ (Date.succDay^[k] d).weekday ∈ targets := by
  obtain ⟨t, ht⟩ := List.exists_mem_of_ne_nil targets hne
  have ht7 := hsub t ht
  have hw := weekday_lt_7 d
  refine ⟨(t + 7 - d.weekday) % 7, by omega, ?_⟩
  rw [weekday_iterate_succDay hval _ (by omega)]
  have heq : (d.weekday + (t + 7 - d.weekday) % 7) % 7 = t := by omega
  rw [heq]; exact ht

/-- C5 (amended): for every valid starting date whose 7-day scan stays within
the representable calendar range, `getFirstOccurrence` examines at most 7
consecutive days starting at (and including) the start date and returns the
first examined date whose weekday is in the decoded target set; with a
non-empty target set (at least one valid token) such a date always exists
among those 7 days, and with an empty target set — the only way no day
matches — the original start date is returned unchanged, provided all 7
increments stay within range.  Start dates so close to `date.max` that the
scan must step past it make the loop raise `OverflowError` instead (see the
counterexample). -/
theorem getFirstOccurrence_spec (startDate : Date) (hval : startDate.Valid) (bydayList : List String) :
    (bydayList.filterMap weekdayMapping ≠ [] →
      startDate.toOrdinal + 6 ≤ pyDateMaxOrdinal →
      ∃ k, k < 7 ∧ getFirstOccurrence startDate bydayList = .ok (Date.succDay^[k] startDate) ∧
        (Date.succDay^[k] startDate).weekday ∈ bydayList.filterMap weekdayMapping ∧
        ∀ j < k, (Date.succDay^[j] startDate).weekday ∉ bydayList.filterMap weekdayMapping) ∧
    (bydayList.filterMap weekdayMapping = [] →
      startDate.toOrdinal + 7 ≤ pyDateMaxOrdinal →
      getFirstOccurrence startDate bydayList = .ok startDate) := by
  constructor
  · intro hne hcap
    have hsub : ∀ t ∈ bydayList.filterMap weekdayMapping, t < 7 := by
      intro t ht
      obtain ⟨s, _, hs⟩ := List.mem_filterMap.mp ht
      exact weekdayMapping_lt_7 hs
    obtain ⟨k, hk7, hmem⟩ := exists_match_within_7 hval hcap hsub hne
    obtain ⟨k₀, hk₀, heq, hmem₀, hmin₀⟩ :=
      firstOccAux_first_match (bydayList.filterMap weekdayMapping) 7 startDate hval (by omega)
        ⟨k, hk7, hmem⟩
    refine ⟨k₀, hk₀, ?_, hmem₀, hmin₀⟩
    unfold getFirstOccurrence
    rw [heq]
  · intro hempty hcap
    unfold getFirstOccurrence
    rw [hempty, firstOccAux_empty 7 startDate hval hcap]

/-- Witness for C5 at the spec's example: 2025-01-08 is a Wednesday; with
target {Monday} the scan returns the following Monday, 5 days later, examined
as the first match. -/
theorem getFirstOccurrence_spec_witness :
    ∃ k, k < 7 ∧ getFirstOccurrence ⟨2025, 1, 8⟩ ["MO"] = .ok (Date.succDay^[k] ⟨2025, 1, 8⟩) ∧
      (Date.succDay^[k] ⟨2025, 1, 8⟩).weekday ∈ (["MO"] : List String).filterMap weekdayMapping ∧
      ∀ j < k, (Date.succDay^[j] ⟨2025, 1, 8⟩).weekday ∉ (["MO"] : List String).filterMap weekdayMapping :=
  (getFirstOccurrence_spec ⟨2025, 1, 8⟩ (by decide) ["MO"]).1 (by decide) (by decide)

/-- C5 (counterexample): at the last representable date 9999-12-31 (a
Friday) with the non-empty target set {Monday}, the scan must step past
`date.max`, so the source raises `OverflowError` instead of returning a
first occurrence — refuting the claim's "defined fallback, not an
error" totality. -/
theorem getFirstOccurrence_overflow :
    (⟨9999, 12, 31⟩ : Date).Valid ∧
    (["MO"] : List String).filterMap weekdayMapping ≠ [] ∧
    getFirstOccurrence ⟨9999, 12, 31⟩ ["MO"] = .exn .overflowError :=
  ⟨by decide, by decide, by decide⟩

theorem filterMap_dropWhile_of_none {α β : Type} (g : α → Option β) (p : α → Bool)
    (h : ∀ c, p c = true → g c = none) :
    ∀ l : List α, (l.dropWhile p).filterMap g = l.filterMap g := by
  intro l
  induction l with
  | nil => rfl
  | cons c t ih =>
    by_cases hc : p c = true
    · rw [List.dropWhile_cons_of_pos hc, ih, List.filterMap_cons, h c hc]
    · rw [List.dropWhile_cons_of_neg hc]

theorem filterMap_pyStrip_of_none {β : Type} (g : Char → Option β)
    (h : ∀ c, pyIsSpace c = true → g c = none) (cs : List Char) :
    (pyStrip cs).filterMap g = cs.filterMap g := by
  unfold pyStrip
  rw [List.filterMap_reverse, filterMap_dropWhile_of_none g pyIsSpace h,
    List.filterMap_reverse, List.reverse_reverse, filterMap_dropWhile_of_none g pyIsSpace h]

theorem dayLetter_toUpper_of_space {c : Char} (hc : pyIsSpace c = true) :
    dayLetter c.toUpper = none := by
  simp only [pyIsSpace, Bool.or_eq_true, beq_iff_eq] at hc
  rcases hc with ((((h | h) | h) | h) | h) | h <;> subst h <;> decide

/-- C6: `parseDays` maps each character of the input, case-insensitively,
through the fixed table M→MO, T→TU, W→WE, R→TH, F→FR, S→SA, U→SU, silently
dropping every unrecognised character; in particular "MWF" → [MO, WE, FR],
"TR" → [TU, TH], and "Z" and "" → []. -/
theorem parseDays_spec :
    (∀ s : String, parseDays s = s.data.filterMap (fun c =>
      match c.toUpper with
      | 'M' => some "MO"
      | 'T' => some "TU"
      | 'W' => some "WE"
      | 'R' => some "TH"
      | 'F' => some "FR"
      | 'S' => some "SA"
      | 'U' => some "SU"
      | _ => none)) ∧
    parseDays "MWF" = ["MO", "WE", "FR"] ∧ parseDays "TR" = ["TU", "TH"] ∧
    parseDays "Z" = [] ∧ parseDays "" = [] := by
  refine ⟨?_, by decide, by decide, by decide, by decide⟩
  intro s
  show parseDays s = s.data.filterMap (fun c => dayLetter c.toUpper)
  unfold parseDays
  rw [List.filterMap_map]
  exact filterMap_pyStrip_of_none _ (fun c hc => dayLetter_toUpper_of_space hc) s.data

/-- C7: `parseDateRange` succeeds exactly when the input splits on "-" into
exactly two (stripped) parts and both parts parse under the same one of the
two fixed formats, numeric `%m/%d/%Y` tried first and winning when it matches
both; otherwise it returns the failure signal.  The spec's three examples are
checked concretely. -/
theorem parseDateRange_spec :
    (∀ (s : String) (a b : Date), parseDateRange s = some (a, b) ↔
      ∃ p q, (pySplitOn s "-").map pyStripStr = [p, q] ∧
        ((strptimeMDY p = some a ∧ strptimeMDY q = some b) ∨
         ((strptimeMDY p = none ∨ strptimeMDY q = none) ∧
          strptimeBdY p = some a ∧ strptimeBdY q = some b))) ∧
    parseDateRange "01/06/2025 - 04/08/2025" = some (⟨2025, 1, 6⟩, ⟨2025, 4, 8⟩) ∧
    parseDateRange "Jan 06, 2025 - Apr 08, 2025" = some (⟨2025, 1, 6⟩, ⟨2025, 4, 8⟩) ∧
    parseDateRange "garbage" = none := by
  refine ⟨?_, by decide, by decide, by decide⟩
  intro s a b
  unfold parseDateRange
  constructor
  · intro h
    split at h
    case _ p q heq =>
      refine ⟨p, q, heq, ?_⟩
      rcases hmp : strptimeMDY p with _ | d1 <;> rcases hmq : strptimeMDY q with _ | d2 <;>
          simp only [hmp, hmq] at h <;>
          [skip; skip; skip; (exact Or.inl (by simp_all))] <;>
        rcases hbp : strptimeBdY p with _ | e1 <;> rcases hbq : strptimeBdY q with _ | e2 <;>
          simp only [hbp, hbq] at h <;> simp_all
    case _ => simp at h
  · rintro ⟨p, q, hpq, hcase⟩
    rcases hmp : strptimeMDY p with _ | d1 <;> rcases hmq : strptimeMDY q with _ | d2 <;>
      rcases hcase with ⟨h1, h2⟩ | ⟨hnone, h3, h4⟩ <;> simp_all

theorem append_ne_beginVEvent (a b : String) (c : Char) (t : List Char)
    (ha : a.data = c :: t) (hc : c ≠ 'B') : (a ++ b) ≠ "BEGIN:VEVENT" := by
  intro h
  have hd : ("BEGIN:VEVENT" : String).data = a.data ++ b.data := by rw [← h]; rfl
  rw [ha] at hd
  have hB : ("BEGIN:VEVENT" : String).data = 'B' :: "EGIN:VEVENT".data := rfl
  rw [hB] at hd
  simp only [List.cons_append] at hd
  injection hd with h1 _
  exact hc h1.symm

theorem eventLoop_ok (dtStamp : String) (uid : Nat → String) :
    ∀ (ps : List (Nat × Course)) (acc : List String),
      (∀ p ∈ ps, ∃ ls, courseEvent dtStamp (uid p.1) p.2 = .ok ls) →
      eventLoop dtStamp uid ps acc =
        .ok (acc ++ (ps.map (fun p => okLines (courseEvent dtStamp (uid p.1) p.2))).flatten) := by
  intro ps
  induction ps with
  | nil => intro acc _; simp [eventLoop]
  | cons p ps ih =>
    intro acc h
    obtain ⟨ls, hls⟩ := h p (by simp)
    have hrest : ∀ q ∈ ps, ∃ ls, courseEvent dtStamp (uid q.1) q.2 = .ok ls := by
      intro q hq
      exact h q (by simp [hq])
    simp only [eventLoop, hls]
    rw [ih (acc ++ ls) hrest]
    simp [okLines, hls, List.append_assoc]

/-- C2 (amended): when no record makes the first-occurrence scan overflow,
the generated document is the header lines followed by the per-record event
blocks in input order and the closing footer.  A record contributes the
empty block (is skipped, silently) exactly when one of the four skip
conditions holds: a "TBA" sentinel in `dateRange`/`time`/`days`, date-range
resolution failure, empty day decoding, or time-range resolution failure at
the (successfully computed) first occurrence date.  Every record's
contribution is the empty block, exactly one event block, or the escaping
`OverflowError` of the date scan (see the counterexample); the original
claim's "exactly zero or exactly one block, with no error raised" is
therefore true only away from the overflow path. -/
theorem generateICS_skip_iff (dtStamp : String) (uid : Nat → String) (calendarName : String)
    (courses : List Course) :
    ((∀ p ∈ courses.enum, ∃ ls, courseEvent dtStamp (uid p.1) p.2 = .ok ls) →
      generateICSLines dtStamp uid calendarName courses =
        .ok (headerLines calendarName ++
          ((courses.enum.map (fun p => okLines (courseEvent dtStamp (uid p.1) p.2))).flatten ++
            ["END:VCALENDAR"]))) ∧
    ∀ (u : String) (c : Course),
      (courseEvent dtStamp u c = .ok [] ↔
        c.dateRange = "TBA" ∨ c.time = "TBA" ∨ c.days = "TBA" ∨
        parseDateRange c.dateRange = none ∨
        parseDays c.days = [] ∨
        (∃ sd ed fo, parseDateRange c.dateRange = some (sd, ed) ∧
          getFirstOccurrence sd (parseDays c.days) = .ok fo ∧
          parseTimeRange c.time fo = none)) ∧
      (courseEvent dtStamp u c = .ok [] ∨
        (∃ ls, courseEvent dtStamp u c = .ok ls ∧ ls.count "BEGIN:VEVENT" = 1) ∨
        courseEvent dtStamp u c = .exn .overflowError) := by
  constructor
  · intro hok
    unfold generateICSLines
    rw [eventLoop_ok dtStamp uid courses.enum (headerLines calendarName) hok]
    simp [List.append_assoc]
  · intro u c
    by_cases htba : c.dateRange = "TBA" ∨ c.time = "TBA" ∨ c.days = "TBA"
    · have he : courseEvent dtStamp u c = .ok [] := by
        unfold courseEvent
        simp [htba]
      rw [he]
      exact ⟨Iff.intro (fun _ => by tauto) (fun _ => rfl), Or.inl rfl⟩
    · rcases hdr : parseDateRange c.dateRange with _ | ⟨sd, ed⟩
      · have he : courseEvent dtStamp u c = .ok [] := by
          unfold courseEvent
          simp [htba, hdr]
        rw [he]
        exact ⟨Iff.intro (fun _ => by tauto) (fun _ => rfl), Or.inl rfl⟩
      · by_cases hdl : parseDays c.days = []
        · have he : courseEvent dtStamp u c = .ok [] := by
            unfold courseEvent
            simp [htba, hdr, hdl]
          rw [he]
          exact ⟨Iff.intro (fun _ => by tauto) (fun _ => rfl), Or.inl rfl⟩
        · rcases hfo : getFirstOccurrence sd (parseDays c.days) with fo | e
          · rcases htr : parseTimeRange c.time fo with _ | ⟨st, en⟩
            · have he : courseEvent dtStamp u c = .ok [] := by
                unfold courseEvent
                simp [htba, hdr, hdl, hfo, htr]
              rw [he]
              refine ⟨Iff.intro (fun _ => ?_) (fun _ => rfl), Or.inl rfl⟩
              exact Or.inr (Or.inr (Or.inr (Or.inr (Or.inr ⟨sd, ed, fo, rfl, hfo, htr⟩))))
            · have he : courseEvent dtStamp u c =
                  .ok ["BEGIN:VEVENT",
                       "UID:" ++ u ++ "@coursecalendar",
                       "DTSTAMP:" ++ dtStamp,
                       "DTSTART;TZID=America/New_York:" ++ formatDateTime st,
                       "DTEND;TZID=America/New_York:" ++ formatDateTime en,
                       "RRULE:" ++ ("FREQ=WEEKLY;UNTIL=" ++ formatDateTime ⟨ed, st.time⟩ ++ ";BYDAY=" ++
                         String.intercalate "," (parseDays c.days)),
                       "SUMMARY:" ++ c.className,
                       "DESCRIPTION:" ++ "Type: " ++ pyCapitalize c.meetingType ++ "\\nInstructor: " ++ c.instructor,
                       "LOCATION:" ++ c.location,
                       "END:VEVENT"] := by
                unfold courseEvent
                simp [htba, hdr, hdl, hfo, htr]
              refine ⟨?_, ?_⟩
              · rw [he]
                simp only [PyResult.ok.injEq, List.cons_ne_nil, false_iff]
                rintro (h | h | h | h | h | ⟨sd2, ed2, fo2, hdr2, hfo2, htr2⟩) <;> simp_all
              · refine Or.inr (Or.inl ⟨_, he, ?_⟩)
                have n1 : ("UID:" ++ u ++ "@coursecalendar") ≠ "BEGIN:VEVENT" :=
                  append_ne_beginVEvent ("UID:" ++ u) "@coursecalendar" 'U' ("ID:".data ++ u.data) rfl (by decide)
                have n2 : ("DTSTAMP:" ++ dtStamp) ≠ "BEGIN:VEVENT" :=
                  append_ne_beginVEvent "DTSTAMP:" dtStamp 'D' "TSTAMP:".data rfl (by decide)
                have n3 : ("DTSTART;TZID=America/New_York:" ++ formatDateTime st) ≠ "BEGIN:VEVENT" :=
                  append_ne_beginVEvent _ _ 'D' "TSTART;TZID=America/New_York:".data rfl (by decide)
                have n4 : ("DTEND;TZID=America/New_York:" ++ formatDateTime en) ≠ "BEGIN:VEVENT" :=
                  append_ne_beginVEvent _ _ 'D' "TEND;TZID=America/New_York:".data rfl (by decide)
                have n5 : ("RRULE:" ++ ("FREQ=WEEKLY;UNTIL=" ++ formatDateTime ⟨ed, st.time⟩ ++ ";BYDAY=" ++
                    String.intercalate "," (parseDays c.days))) ≠ "BEGIN:VEVENT" :=
                  append_ne_beginVEvent _ _ 'R' "RULE:".data rfl (by decide)
                have n6 : ("SUMMARY:" ++ c.className) ≠ "BEGIN:VEVENT" :=
                  append_ne_beginVEvent _ _ 'S' "UMMARY:".data rfl (by decide)
                have n7 : ("DESCRIPTION:Type: " ++ pyCapitalize c.meetingType ++ "\\nInstructor: " ++ c.instructor) ≠ "BEGIN:VEVENT" :=
                  append_ne_beginVEvent ("DESCRIPTION:Type: " ++ pyCapitalize c.meetingType ++ "\\nInstructor: ") c.instructor 'D'
                    (("ESCRIPTION:Type: ".data ++ (pyCapitalize c.meetingType).data) ++ "\\nInstructor: ".data) rfl (by decide)
                have n8 : ("LOCATION:" ++ c.location) ≠ "BEGIN:VEVENT" :=
                  append_ne_beginVEvent _ _ 'L' "OCATION:".data rfl (by decide)
                simp [List.count_cons, n1, n2, n3, n4, n5, n6, n7, n8]
          · have he2 : e = .overflowError := getFirstOccurrence_exn hfo
            subst he2
            have he : courseEvent dtStamp u c = .exn .overflowError := by
              unfold courseEvent
              simp [htba, hdr, hdl, hfo]
            rw [he]
            constructor
            · constructor
              · intro hx
                cases hx
              · intro hx
                exfalso
                rcases hx with h | h | h | h | h | ⟨sd2, ed2, fo2, hdr2, hfo2, htr2⟩ <;> simp_all
            · exact Or.inr (Or.inr rfl)

/-- Witness for C2's amended structure statement at a one-record input whose
record is skipped (all hypotheses discharged concretely). -/
theorem generateICS_skip_iff_witness :
    generateICSLines "S" (fun _ => "u") "Cal" [⟨"X", "TBA", "tba", "TBA", "TBA", "TBA", "TBA"⟩] =
      .ok (headerLines "Cal" ++
        ((([(⟨"X", "TBA", "tba", "TBA", "TBA", "TBA", "TBA"⟩ : Course)] : List Course).enum.map
            (fun p => okLines (courseEvent "S" ((fun _ => "u") p.1) p.2))).flatten ++
          ["END:VCALENDAR"])) :=
  (generateICS_skip_iff "S" (fun _ => "u") "Cal" [⟨"X", "TBA", "tba", "TBA", "TBA", "TBA", "TBA"⟩]).1
    (by
      intro p hp
      have henum : ([(⟨"X", "TBA", "tba", "TBA", "TBA", "TBA", "TBA"⟩ : Course)] : List Course).enum =
          [(0, ⟨"X", "TBA", "tba", "TBA", "TBA", "TBA", "TBA"⟩)] := by decide
      rw [henum] at hp
      simp at hp
      subst hp
      exact ⟨[], by decide⟩)

/-- C2 (counterexample): the record with date range 12/31/9999 - 12/31/9999
(a Friday) and days "M" satisfies none of the four skip conditions, yet it
contributes neither zero blocks silently nor one event block: the
first-occurrence scan overflows `date.max` and `generateICS` raises
`OverflowError`. -/
theorem courseEvent_overflow :
    courseEvent "S" "u" ⟨"Y2K", "TBA", "lecture", "9:30 AM - 10:45 AM", "M", "R", "12/31/9999 - 12/31/9999"⟩ =
      .exn .overflowError ∧
    parseDateRange "12/31/9999 - 12/31/9999" = some (⟨9999, 12, 31⟩, ⟨9999, 12, 31⟩) ∧
    parseDays "M" = ["MO"] ∧
    generateICSLines "S" (fun _ => "u") "Cal"
      [⟨"Y2K", "TBA", "lecture", "9:30 AM - 10:45 AM", "M", "R", "12/31/9999 - 12/31/9999"⟩] =
      .exn .overflowError :=
  ⟨by decide, by decide, by decide, by decide⟩

/-! ## Parser structure lemmas -/

theorem stringMk_eq_empty_iff (l : List Char) : String.mk l = "" ↔ l = [] := by
  constructor
  · intro h
    have := congrArg String.data h
    simpa using this
  · rintro rfl; rfl

theorem dropWhile_head_false {α : Type} {p : α → Bool} :
    ∀ {l : List α} {c : α} {t : List α}, l.dropWhile p = c :: t → p c = false := by
  intro l
  induction l with
  | nil => intro c t h; cases h
  | cons a l ih =>
    intro c t h
    by_cases ha : p a = true
    · rw [List.dropWhile_cons_of_pos ha] at h
      exact ih h
    · rw [List.dropWhile_cons_of_neg ha] at h
      injection h with h1 _
      subst h1
      simpa using ha

theorem dropWhile_append_last {α : Type} {p : α → Bool} {c : α} (hc : p c = false) :
    ∀ l : List α, ∃ w, (l ++ [c]).dropWhile p = w ++ [c] := by
  intro l
  induction l with
  | nil =>
    refine ⟨[], ?_⟩
    have hc2 : ¬ p c = true := by simp [hc]
    simp [List.dropWhile_cons_of_neg hc2]
  | cons a l ih =>
    by_cases ha : p a = true
    · obtain ⟨w, hw⟩ := ih
      refine ⟨w, ?_⟩
      rw [List.cons_append, List.dropWhile_cons_of_pos ha, hw]
    · refine ⟨a :: l, ?_⟩
      rw [List.cons_append, List.dropWhile_cons_of_neg ha]

theorem pyStrip_cons_nonspace {c : Char} {t : List Char} (hc : pyIsSpace c = false) :
    ∃ w, pyStrip (c :: t) = c :: w := by
  obtain ⟨w, hw⟩ := dropWhile_append_last hc t.reverse
  refine ⟨w.reverse, ?_⟩
  unfold pyStrip
  rw [List.dropWhile_cons_of_neg (by simp [hc]), List.reverse_cons, hw, List.reverse_append]
  rfl

theorem pyStrip_ne_nil_shape {cs : List Char} (h : pyStrip cs ≠ []) :
    ∃ c w, pyStrip cs = c :: w ∧ pyIsSpace c = false := by
  rcases hl1 : cs.dropWhile pyIsSpace with _ | ⟨c, t⟩
  · exact absurd (by simp [pyStrip, hl1]) h
  · have hc : pyIsSpace c = false := dropWhile_head_false hl1
    obtain ⟨w, hw⟩ := dropWhile_append_last hc t.reverse
    refine ⟨c, w.reverse, ?_, hc⟩
    unfold pyStrip
    rw [hl1, List.reverse_cons, hw, List.reverse_append]
    rfl

theorem pySplitlinesGo_eq_nil_iff :
    ∀ (n : Nat) (l acc : List Char), l.length < n →
      (pySplitlinesGo n l acc = [] ↔ l = [] ∧ acc = []) := by
  intro n
  induction n with
  | zero => intro l acc h; omega
  | succ n ih =>
    intro l acc hlen
    cases l with
    | nil =>
      cases acc <;> simp [pySplitlinesGo]
    | cons c rest =>
      by_cases hr : c = '\r'
      · subst hr
        cases rest with
        | nil => simp [pySplitlinesGo]
        | cons c2 rest2 =>
          by_cases hn : c2 = '\n'
          · subst hn; simp [pySplitlinesGo]
          · simp only [pySplitlinesGo, if_pos rfl]
            cases hc2 : c2; simp_all [pySplitlinesGo]
      · by_cases hn : c = '\n'
        · subst hn; simp [pySplitlinesGo]
        · simp only [pySplitlinesGo, if_neg hr, if_neg hn]
          rw [ih rest (c :: acc) (by simp at hlen ⊢; omega)]
          simp

theorem pySplitlinesGo_first :
    ∀ (n : Nat) (l acc : List Char), acc ≠ [] →
      ∃ t0 rest, pySplitlinesGo n l acc = (acc.reverse ++ t0) :: rest := by
  intro n
  induction n with
  | zero =>
    intro l acc _
    exact ⟨l, [], rfl⟩
  | succ n ih =>
    intro l acc hacc
    cases l with
    | nil =>
      refine ⟨[], [], ?_⟩
      have : acc.isEmpty = false := by cases acc <;> simp_all
      simp [pySplitlinesGo, this]
    | cons c rest =>
      by_cases hr : c = '\r'
      · subst hr
        cases rest with
        | nil => exact ⟨[], pySplitlinesGo n [] [], by simp [pySplitlinesGo]⟩
        | cons c2 rest2 =>
          by_cases hn : c2 = '\n'
          · subst hn
            exact ⟨[], pySplitlinesGo n rest2 [], by simp [pySplitlinesGo]⟩
          · refine ⟨[], pySplitlinesGo n (c2 :: rest2) [], ?_⟩
            simp only [pySplitlinesGo, if_pos rfl, List.append_nil]
            split <;> simp_all
      · by_cases hn : c = '\n'
        · subst hn
          exact ⟨[], pySplitlinesGo n rest [], by simp [pySplitlinesGo, hr]⟩
        · simp only [pySplitlinesGo, if_neg hr, if_neg hn]
          obtain ⟨t0, rest2, hgo⟩ := ih rest (c :: acc) (by simp)
          refine ⟨c :: t0, rest2, ?_⟩
          rw [hgo]
          simp

theorem pySplitlines_eq_nil_iff (s : String) : pySplitlines s = [] ↔ s = "" := by
  unfold pySplitlines
  rw [List.map_eq_nil_iff]
  rw [pySplitlinesGo_eq_nil_iff (s.data.length + 1) s.data [] (by omega)]
  constructor
  · rintro ⟨h, _⟩
    cases s
    simpa [stringMk_eq_empty_iff] using h
  · rintro rfl
    exact ⟨rfl, rfl⟩

theorem pySplitlines_of_strip_ne {b : String} (hb : pyStripStr b ≠ "") :
    ∃ (c : Char) (t0 : List Char) (rest : List String),
      pySplitlines (pyStripStr b) = String.mk (c :: t0) :: rest ∧ pyIsSpace c = false := by
  have hne : pyStrip b.data ≠ [] := by
    intro h
    exact hb (by unfold pyStripStr; rw [h])
  obtain ⟨c, w, hshape, hc⟩ := pyStrip_ne_nil_shape hne
  have hcr : ¬ c = '\r' := by rintro rfl; simp [pyIsSpace] at hc
  have hcn : ¬ c = '\n' := by rintro rfl; simp [pyIsSpace] at hc
  obtain ⟨t0, rest, hgo⟩ := pySplitlinesGo_first (w.length + 1) w [c] (by simp)
  refine ⟨c, t0, rest.map String.mk, ?_, hc⟩
  unfold pySplitlines
  have hdata : (pyStripStr b).data = c :: w := by
    show pyStrip b.data = c :: w
    exact hshape
  rw [hdata]
  show (pySplitlinesGo (w.length + 1 + 1) (c :: w) []).map String.mk = _
  have hstep : pySplitlinesGo (w.length + 1 + 1) (c :: w) [] = pySplitlinesGo (w.length + 1) w [c] := by
    simp [pySplitlinesGo, hcr, hcn]
  rw [hstep, hgo]
  simp

theorem mkCourse_fields (cn : String) (i : Option String) (mt t d loc dr : String) :
    (mkCourse cn i mt t d loc dr).className = cn ∧
    (mkCourse cn i mt t d loc dr).instructor ≠ "" ∧
    (mkCourse cn i mt t d loc dr).location ≠ "" := by
  refine ⟨rfl, ?_, ?_⟩
  · show (match i with
      | some s => if s = "" then "TBA" else s
      | none => "TBA") ≠ ""
    rcases i with _ | s
    · decide
    · dsimp only
      split_ifs with h
      · decide
      · exact h
  · show (if loc = "" then "TBA" else loc) ≠ ""
    split_ifs with h
    · decide
    · exact h

theorem processBlock_empty {b : String} (hb : pyStripStr b = "") : processBlock b = .ok none := by
  unfold processBlock
  rw [(pySplitlines_eq_nil_iff (pyStripStr b)).mpr hb]

theorem blockClassName_shape {b : String} (hb : pyStripStr b ≠ "") :
    ∃ (l0 : String) (rest : List String),
      pySplitlines (pyStripStr b) = l0 :: rest ∧
      blockClassName b = pyStripStr l0 ∧ blockClassName b ≠ "" := by
  obtain ⟨c, t0, rest, hlines, hc⟩ := pySplitlines_of_strip_ne hb
  refine ⟨String.mk (c :: t0), rest, hlines, ?_, ?_⟩
  · unfold blockClassName
    rw [hlines]
    rfl
  · unfold blockClassName
    rw [hlines]
    show pyStripStr (String.mk (c :: t0)) ≠ ""
    obtain ⟨w, hw⟩ := pyStrip_cons_nonspace (t := t0) hc
    unfold pyStripStr
    show String.mk (pyStrip (c :: t0)) ≠ ""
    rw [hw]
    simp [stringMk_eq_empty_iff]

theorem processBlock_of_ne {b : String} (hb : pyStripStr b ≠ "") :
    (∃ e, processBlock b = .exn e) ∨
    (∃ c, processBlock b = .ok (some c) ∧ c.className = blockClassName b ∧
      c.className ≠ "" ∧ c.instructor ≠ "" ∧ c.location ≠ "") := by
  obtain ⟨l0, rest, hlines, hcn, hcne⟩ := blockClassName_shape hb
  rcases hf : blockFields (l0 :: rest) with f | e
  · right
    have hpb : processBlock b = .ok (some (mkCourse (pyStripStr l0) (blockInstructor (l0 :: rest))
        f.meetingType f.timeVal f.days f.location f.dateRange)) := by
      unfold processBlock
      simp only [hlines, hf]
    obtain ⟨h1, h2, h3⟩ := mkCourse_fields (pyStripStr l0) (blockInstructor (l0 :: rest))
      f.meetingType f.timeVal f.days f.location f.dateRange
    exact ⟨_, hpb, h1.trans hcn.symm, by rw [h1, ← hcn]; exact hcne, h2, h3⟩
  · left
    refine ⟨e, ?_⟩
    unfold processBlock
    simp only [hlines, hf]

theorem parseBlocks_ok :
    ∀ (blocks : List String) (acc cs : List Course), parseBlocks blocks acc = .ok cs →
      cs.map Course.className =
        acc.map Course.className ++
          (blocks.filter (fun b => decide (pyStripStr b ≠ ""))).map blockClassName ∧
      ∀ c ∈ cs, c ∈ acc ∨ (c.className ≠ "" ∧ c.instructor ≠ "" ∧ c.location ≠ "") := by
  intro blocks
  induction blocks with
  | nil =>
    intro acc cs h
    injection h with h1
    subst h1
    exact ⟨by simp, fun c hc => Or.inl hc⟩
  | cons b bs ih =>
    intro acc cs h
    unfold parseBlocks at h
    by_cases hb : pyStripStr b = ""
    · rw [processBlock_empty hb] at h
      obtain ⟨hmap, hinv⟩ := ih acc cs h
      constructor
      · rw [hmap]
        simp [List.filter_cons, hb]
      · exact hinv
    · rcases processBlock_of_ne hb with ⟨e, hpb⟩ | ⟨c, hpb, hcn, hne, hin, hloc⟩
      · rw [hpb] at h
        cases h
      · rw [hpb] at h
        obtain ⟨hmap, hinv⟩ := ih (acc ++ [c]) cs h
        constructor
        · rw [hmap]
          simp [List.filter_cons, hb, hcn]
        · intro c' hc'
          rcases hinv c' hc' with hmem | hP
          · rcases List.mem_append.mp hmem with hmem2 | hmem2
            · exact Or.inl hmem2
            · have : c' = c := by simpa using hmem2
              subst this
              exact Or.inr ⟨hne, hin, hloc⟩
          · exact Or.inr hP

/-! ## Claim theorems for the parser -/

set_option maxRecDepth 100000

/-- C9 (counterexample): the claim's "for every input text" form fails on a
raising input: this text is a single block, non-empty after trimming, yet
`parseCourses` produces no record list at all — it raises `IndexError`
through the bug of C1. -/
theorem parseCourses_blocks_counterexample :
    parseCourses "X\nScheduled Meeting Times\nA\tB\tTime\nq\tr" = .exn .indexError ∧
    pyStripStr "X\nScheduled Meeting Times\nA\tB\tTime\nq\tr" ≠ "" ∧
    ¬ ∃ cs : List Course, parseCourses "X\nScheduled Meeting Times\nA\tB\tTime\nq\tr" = .ok cs := by
  refine ⟨by decide, by decide, ?_⟩
  rintro ⟨cs, h⟩
  have he : parseCourses "X\nScheduled Meeting Times\nA\tB\tTime\nq\tr" = .exn .indexError := by
    decide
  rw [he] at h
  cases h

/-- C9 (amended): on every input text on which `parseCourses` returns
normally (it can instead raise, see the counterexample and C1), it splits
the (stripped) text into blocks on blank-line boundaries (`"\n\n"`) and
produces exactly one Course record per block that is non-empty after
trimming, in input order, with each record's `className` equal to the
trimmed first line of its (trimmed) block; every emitted record has a
non-empty `className`. -/
theorem parseCourses_blocks (text : String) (cs : List Course)
    (h : parseCourses text = .ok cs) :
    cs.map Course.className =
      ((pySplitOn (pyStripStr text) "\n\n").filter
        (fun b => decide (pyStripStr b ≠ ""))).map blockClassName ∧
    ∀ c ∈ cs, c.className ≠ "" := by
  obtain ⟨hmap, hinv⟩ := parseBlocks_ok (pySplitOn (pyStripStr text) "\n\n") [] cs h
  refine ⟨by simpa using hmap, fun c hc => ?_⟩
  rcases hinv c hc with hmem | hP
  · simp at hmem
  · exact hP.1

/-- Witness for C9 on a concrete two-block input. -/
theorem parseCourses_blocks_witness :
    ([⟨"A", "TBA", "tba", "TBA", "TBA", "TBA", "TBA"⟩,
      ⟨"B", "TBA", "tba", "TBA", "TBA", "TBA", "TBA"⟩] : List Course).map Course.className =
      ((pySplitOn (pyStripStr "A\n\nB") "\n\n").filter
        (fun b => decide (pyStripStr b ≠ ""))).map blockClassName ∧
    ("A" : String) ≠ "" ∧ ("B" : String) ≠ "" :=
  ⟨(parseCourses_blocks "A\n\nB"
      [⟨"A", "TBA", "tba", "TBA", "TBA", "TBA", "TBA"⟩,
       ⟨"B", "TBA", "tba", "TBA", "TBA", "TBA", "TBA"⟩] (by decide)).1,
   (parseCourses_blocks "A\n\nB"
      [⟨"A", "TBA", "tba", "TBA", "TBA", "TBA", "TBA"⟩,
       ⟨"B", "TBA", "tba", "TBA", "TBA", "TBA", "TBA"⟩] (by decide)).2
     ⟨"A", "TBA", "tba", "TBA", "TBA", "TBA", "TBA"⟩ (by simp),
   (parseCourses_blocks "A\n\nB"
      [⟨"A", "TBA", "tba", "TBA", "TBA", "TBA", "TBA"⟩,
       ⟨"B", "TBA", "tba", "TBA", "TBA", "TBA", "TBA"⟩] (by decide)).2
     ⟨"B", "TBA", "tba", "TBA", "TBA", "TBA", "TBA"⟩ (by simp)⟩

/-- C3 (counterexample): a tab-delimited data row with an empty cell under a
found header produces a Course whose `time` field is the empty string, so it
is false that no field of a parsed record is ever empty. -/
theorem parseCourses_empty_time_field :
    parseCourses "Algo\nScheduled Meeting Times\nDays\tTime\tWhere\tDate Range\tSchedule Type\nMWF\t\tRoom\t01/06/2025 - 04/08/2025\tLecture" =
      .ok [⟨"Algo", "TBA", "lecture", "", "MWF", "Room", "01/06/2025 - 04/08/2025"⟩] ∧
    ¬ (∀ (text : String) (cs : List Course) (c : Course),
        parseCourses text = .ok cs → c ∈ cs → c.time ≠ "") := by
  refine ⟨by decide, fun hclaim => ?_⟩
  exact hclaim
    "Algo\nScheduled Meeting Times\nDays\tTime\tWhere\tDate Range\tSchedule Type\nMWF\t\tRoom\t01/06/2025 - 04/08/2025\tLecture"
    [⟨"Algo", "TBA", "lecture", "", "MWF", "Room", "01/06/2025 - 04/08/2025"⟩]
    ⟨"Algo", "TBA", "lecture", "", "MWF", "Room", "01/06/2025 - 04/08/2025"⟩
    (by decide) (by simp) rfl

/-- C3 (amended): every field of a parsed record is a defined string, and
`instructor` and `location` are never the empty string (the constructor maps
empty/missing values to the sentinel); the remaining schedule fields may be
empty when a tab cell is blank. -/
theorem parseCourses_instructor_location_nonempty (text : String) (cs : List Course)
    (h : parseCourses text = .ok cs) :
    ∀ c ∈ cs, c.instructor ≠ "" ∧ c.location ≠ "" := by
  obtain ⟨_, hinv⟩ := parseBlocks_ok (pySplitOn (pyStripStr text) "\n\n") [] cs h
  intro c hc
  rcases hinv c hc with hmem | hP
  · simp at hmem
  · exact ⟨hP.2.1, hP.2.2⟩

/-- Witness for C3's amended statement on a concrete input. -/
theorem parseCourses_instructor_location_nonempty_witness :
    ("TBA" : String) ≠ "" ∧ ("TBA" : String) ≠ "" :=
  parseCourses_instructor_location_nonempty "A"
    [⟨"A", "TBA", "tba", "TBA", "TBA", "TBA", "TBA"⟩] (by decide)
    ⟨"A", "TBA", "tba", "TBA", "TBA", "TBA", "TBA"⟩ (by simp)

/-- C1 (code bug): `parseCourses` is not exception-free on malformed blocks:
when the tab-split header row contains a looked-up name (here "Time") at a
column index beyond the tab-split data cells, `data[headers.index("Time")]`
raises an `IndexError` that the `except ValueError` clause does not catch, so
the whole call raises instead of emitting a sentinel record. -/
theorem parseCourses_indexError_on_short_data :
    parseCourses "Algo\nScheduled Meeting Times\nA\tB\tC\tD\tE\tTime\nx\ty" =
      .exn .indexError := by decide

/-- C8 (counterexample): in the column-position fallback reached through a
header-lookup failure, a split that yields fewer than 7 fields does not leave
all schedule fields at the sentinel: fields already assigned from tab cells
before the failing lookup keep their values (here `time` = "9:00 AM"). -/
theorem parseCourses_partial_population :
    parseCourses "Algo\nScheduled Meeting Times\nTime\tX\n9:00 AM\tfoo" =
      .ok [⟨"Algo", "TBA", "tba", "9:00 AM", "TBA", "TBA", "TBA"⟩] ∧
    (reSplitWs2 "9:00 AM\tfoo").length < 7 ∧
    ("9:00 AM" : String) ≠ "TBA" :=
  ⟨by decide, by decide, by decide⟩

/-- C8 (amended): the column-position fallback splits the data line on runs
of two or more whitespace characters; with at least 7 fields it assigns
field [1] to time, [2] to days, [3] to location, [4] to date range and [5]
(lower-cased) to meeting type, and with fewer than 7 fields it assigns
nothing, so the fields keep the values they had before the fallback — the
sentinel defaults when the data line had no tab, but possibly tab-extracted
values in the header-lookup-failure path. -/
theorem fallbackUpdate_all_or_nothing (line : String) (f : Fields) :
    ((reSplitWs2 line).length < 7 → fallbackUpdate line f = f) ∧
    (∀ h7 : 7 ≤ (reSplitWs2 line).length,
      fallbackUpdate line f =
        { timeVal := pyStripStr ((reSplitWs2 line).get ⟨1, by omega⟩)
          days := pyStripStr ((reSplitWs2 line).get ⟨2, by omega⟩)
          location := pyStripStr ((reSplitWs2 line).get ⟨3, by omega⟩)
          dateRange := pyStripStr ((reSplitWs2 line).get ⟨4, by omega⟩)
          meetingType := pyLowerStr (pyStripStr ((reSplitWs2 line).get ⟨5, by omega⟩)) }) := by
  constructor
  · intro hlt
    unfold fallbackUpdate
    rw [if_neg (by omega)]
  · intro h7
    unfold fallbackUpdate
    rw [if_pos h7]
    have hg : ∀ (i : Nat) (hi : i < (reSplitWs2 line).length),
        (reSplitWs2 line).getD i "" = (reSplitWs2 line).get ⟨i, hi⟩ := by
      intro i hi
      rw [List.getD_eq_getElem (reSplitWs2 line) "" hi]
      simp
    rw [hg 1 (by omega), hg 2 (by omega), hg 3 (by omega), hg 4 (by omega), hg 5 (by omega)]

/-- Witness for C8's amended statement: a one-field line assigns nothing; a
seven-field line assigns fields [1]–[5]. -/
theorem fallbackUpdate_all_or_nothing_witness :
    fallbackUpdate "abc" Fields.tba = Fields.tba ∧
    fallbackUpdate "f0  f1  f2  f3  f4  f5  f6" Fields.tba = ⟨"f1", "f2", "f3", "f4", "f5"⟩ :=
  ⟨(fallbackUpdate_all_or_nothing "abc" Fields.tba).1 (by decide),
   (fallbackUpdate_all_or_nothing "f0  f1  f2  f3  f4  f5  f6" Fields.tba).2 (by decide)⟩

/-- C4: the event block of a surviving record carries the recurrence rule
line with frequency weekly, UNTIL equal to the resolved range's end calendar
date combined with the event's own start clock time, and BYDAY exactly the
decoded weekday tokens joined in decoding order (no re-sorting). -/
theorem courseEvent_rrule (dtStamp u : String) (c : Course) (sd ed fo : Date)
    (l : List String) (st en : DateTime)
    (htba : ¬(c.dateRange = "TBA" ∨ c.time = "TBA" ∨ c.days = "TBA"))
    (hdr : parseDateRange c.dateRange = some (sd, ed))
    (hdl : parseDays c.days = l) (hne : l ≠ [])
    (hfo : getFirstOccurrence sd l = .ok fo)
    (htr : parseTimeRange c.time fo = some (st, en)) :
    ∃ ls, courseEvent dtStamp u c = .ok ls ∧
      ls[5]? = some ("RRULE:" ++ ("FREQ=WEEKLY;UNTIL=" ++ formatDateTime ⟨ed, st.time⟩ ++ ";BYDAY=" ++
        String.intercalate "," l)) := by
  subst hdl
  have he : courseEvent dtStamp u c =
      .ok ["BEGIN:VEVENT",
           "UID:" ++ u ++ "@coursecalendar",
           "DTSTAMP:" ++ dtStamp,
           "DTSTART;TZID=America/New_York:" ++ formatDateTime st,
           "DTEND;TZID=America/New_York:" ++ formatDateTime en,
           "RRULE:" ++ ("FREQ=WEEKLY;UNTIL=" ++ formatDateTime ⟨ed, st.time⟩ ++ ";BYDAY=" ++
             String.intercalate "," (parseDays c.days)),
           "SUMMARY:" ++ c.className,
           "DESCRIPTION:" ++ "Type: " ++ pyCapitalize c.meetingType ++ "\\nInstructor: " ++ c.instructor,
           "LOCATION:" ++ c.location,
           "END:VEVENT"] := by
    unfold courseEvent
    simp [htba, hdr, hne, hfo, htr]
  exact ⟨_, he, rfl⟩

/-- Witness for C4 at the spec's end-to-end example: UNTIL is 2025-04-08 at
the 9:30 start time and BYDAY is MO,WE,FR in decoding order. -/
theorem courseEvent_rrule_witness :
    ∃ ls, courseEvent "S" "u"
        ⟨"CS", "TBA", "lecture", "9:30 AM - 10:45 AM", "MWF", "Room", "01/06/2025 - 04/08/2025"⟩ = .ok ls ∧
      ls[5]? = some ("RRULE:" ++ ("FREQ=WEEKLY;UNTIL=" ++ formatDateTime ⟨⟨2025, 4, 8⟩, ⟨9, 30⟩⟩ ++ ";BYDAY=" ++
        String.intercalate "," ["MO", "WE", "FR"])) :=
  courseEvent_rrule "S" "u"
    ⟨"CS", "TBA", "lecture", "9:30 AM - 10:45 AM", "MWF", "Room", "01/06/2025 - 04/08/2025"⟩
    ⟨2025, 1, 6⟩ ⟨2025, 4, 8⟩ ⟨2025, 1, 6⟩ ["MO", "WE", "FR"]
    ⟨⟨2025, 1, 6⟩, ⟨9, 30⟩⟩ ⟨⟨2025, 1, 6⟩, ⟨10, 45⟩⟩
    (by decide) (by decide) (by decide) (by decide) (by decide) (by decide)

/-- C10: neither `parseTimeRange` nor `generateICS` checks that the end time
follows the start time: for the well-formed record with time
"11:00 PM - 1:00 AM" both clock times are anchored to the same date, the
returned end instant is strictly earlier than the start instant, and the
generator still emits the event, with the serialized DTEND timestamp earlier
than the serialized DTSTART timestamp. -/
theorem generateICS_no_end_after_start_check :
    parseTimeRange "11:00 PM - 1:00 AM" ⟨2025, 1, 6⟩ =
      some (⟨⟨2025, 1, 6⟩, ⟨23, 0⟩⟩, ⟨⟨2025, 1, 6⟩, ⟨1, 0⟩⟩) ∧
    (⟨⟨2025, 1, 6⟩, ⟨1, 0⟩⟩ : DateTime).absMinutes < (⟨⟨2025, 1, 6⟩, ⟨23, 0⟩⟩ : DateTime).absMinutes ∧
    (∃ ls, courseEvent "S" "u"
        ⟨"Night", "TBA", "lecture", "11:00 PM - 1:00 AM", "M", "R", "01/06/2025 - 04/08/2025"⟩ = .ok ls ∧
      ls ≠ [] ∧
      ls[3]? = some "DTSTART;TZID=America/New_York:20250106T230000" ∧
      ls[4]? = some "DTEND;TZID=America/New_York:20250106T010000") ∧
    (formatDateTime ⟨⟨2025, 1, 6⟩, ⟨1, 0⟩⟩).data < (formatDateTime ⟨⟨2025, 1, 6⟩, ⟨23, 0⟩⟩).data := by
  refine ⟨by decide, by decide, ?_, by decide⟩
  refine ⟨okLines (courseEvent "S" "u"
      ⟨"Night", "TBA", "lecture", "11:00 PM - 1:00 AM", "M", "R", "01/06/2025 - 04/08/2025"⟩),
    by decide, by decide, by decide, by decide⟩
